import Mathlib

/-
Verification of the DynamoDB tool layer of this repository
(src/strands_dynamodb.py and src/strands_dyn_memory.py):
the value codec (float/Decimal conversion), the table lifecycle
manager (ensure_memory_table_exists), the memory record manager
(store_memory_item, list_recent_memories, search_memories_by_hashtag,
extract_urls) and the totality of the tool boundary.

Python values reaching the codec are modelled by the mutual inductive
type `Val` below; Python floats are modelled by their exact rational
value when finite (`PyFloat.fin q`), together with the three non-finite
values; Python `Decimal` is modelled by its exact numeric value
(`PyDec`); trailing-zero significance of Decimal is immaterial to every
claim checked here.
-/

/-- Model of a CPython float: a finite IEEE-754 binary64 value given by
its exact rational value, or one of the non-finite values. -/
inductive PyFloat where
  | fin (q : ℚ)
  | inf
  | ninf
  | nan
deriving DecidableEq

/-- Model of a Python `Decimal` by its exact numeric value.  `Decimal`
accepts the strings produced by `str` on any float, including
`Decimal("inf")` and `Decimal("nan")`. -/
inductive PyDec where
  | dfin (q : ℚ)
  | dinf
  | dninf
  | dnan
deriving DecidableEq

/-- Fuel-based `⌊log2⌋` (equal to `Nat.log2 n` whenever `fuel ≥ n ≥ 1`);
structural recursion keeps it kernel-reducible. -/
def log2F : Nat → Nat → Nat
  | 0, _ => 0
  | fuel + 1, n => if n ≤ 1 then 0 else log2F fuel (n / 2) + 1

/-- Fuel-based `⌊log base b⌋` for `b ≥ 2`. -/
def logBF (b : Nat) : Nat → Nat → Nat
  | 0, _ => 0
  | fuel + 1, n => if n < b then 0 else logBF b fuel (n / b) + 1

/-- Decides whether a rational is the exact value of a finite IEEE-754
binary64 number: a value `m * 2 ^ e` with `|m| ≤ 2 ^ 53 - 1` and
`-1074 ≤ e ≤ 971`.  In lowest terms `n / d`: `d` must be a power of two
`2 ^ k`; for `k > 0` the numerator is odd, so the only usable exponent
is `-k`; for `k = 0` the numerator must have its low `t - 53` bits zero
where `t` is its bit length. -/
def isFiniteDouble (q : ℚ) : Bool :=
  if q = 0 then true
  else
    let n := q.num.natAbs
    let d := q.den
    let k := log2F d d
    if d ≠ 2 ^ k then false
    else if 0 < k then decide (k ≤ 1074) && decide (n ≤ 2 ^ 53 - 1)
    else
      let t := log2F n n + 1
      if t ≤ 53 then true
      else decide (t ≤ 1024) && decide (n % 2 ^ (t - 53) = 0)

/-- Round a rational to the nearest integer, ties to even
(the rounding used by binary64 arithmetic and by repr candidates). -/
def rndHalfEven (x : ℚ) : Int :=
  let f := ⌊x⌋
  let r := x - (f : ℚ)
  if r < 1 / 2 then f
  else if 1 / 2 < r then f + 1
  else if f % 2 = 0 then f else f + 1

/-- `⌊log2 a⌋` for a positive rational, computed from the bit lengths of
numerator and denominator with a correction step. -/
def qFloorLog2 (a : ℚ) : Int :=
  let g : Int := (log2F a.num.natAbs a.num.natAbs : Int) - (log2F a.den a.den : Int)
  if a < (2 : ℚ) ^ g then g - 1
  else if (2 : ℚ) ^ (g + 1) ≤ a then g + 1
  else g

/-- `⌊log10 a⌋` for a positive rational. -/
def qFloorLog10 (a : ℚ) : Int :=
  let g : Int := (logBF 10 a.num.natAbs a.num.natAbs : Int) - (logBF 10 a.den a.den : Int)
  if a < (10 : ℚ) ^ g then g - 1
  else if (10 : ℚ) ^ (g + 1) ≤ a then g + 1
  else g

/-- Round a rational to `p` significant decimal digits (`p ≥ 1`),
half-to-even. -/
def decRound (p : Nat) (q : ℚ) : ℚ :=
  if q = 0 then 0
  else
    let d10 := qFloorLog10 |q|
    let s : Int := (p : Int) - 1 - d10
    (rndHalfEven (q * (10 : ℚ) ^ s) : ℚ) * (10 : ℚ) ^ (-s)

/-- Round-to-nearest (ties to even) of a rational that is not exactly
representable as a binary64 value; overflows to the infinities. -/
def roundSlow (q : ℚ) : PyFloat :=
  if q = 0 then PyFloat.fin 0
  else
    let neg := q < 0
    let a := |q|
    let e : Int := max (-1074) (qFloorLog2 a - 52)
    let m : Int := rndHalfEven (a / (2 : ℚ) ^ e)
    let m2 : Int := if m = 2 ^ 53 then 2 ^ 52 else m
    let e2 : Int := if m = 2 ^ 53 then e + 1 else e
    if 971 < e2 then (if neg then PyFloat.ninf else PyFloat.inf)
    else
      let v := (m2 : ℚ) * (2 : ℚ) ^ e2
      PyFloat.fin (if neg then -v else v)

/-- Correctly rounded conversion of an exact rational to binary64:
an exactly representable value is returned unchanged (that is what
correct rounding does on representable input), anything else goes
through `roundSlow`. -/
def roundDouble (q : ℚ) : PyFloat :=
  if isFiniteDouble q then PyFloat.fin q else roundSlow q

/-- The exact value of `str(f)` for a finite CPython float: the
shortest decimal (at most 17 significant digits) that converts back to
`f`; CPython searches candidate precisions and returns the first that
round-trips.  The final fallback returns the exact value of `f` itself
(a dyadic rational always has a finite decimal expansion, and 17 digits
always suffice in reality, so the fallback is never reached for actual
floats). -/
def pyStrVal (q : ℚ) : ℚ :=
  if q = 0 then 0
  else
    match (List.range 17).findSome? (fun i =>
      let c := decRound (i + 1) q
      if roundDouble c = PyFloat.fin q then some c else none) with
    | some c => c
    | none => q

/-- `Decimal(str(f))` on the model: total, also for the non-finite
floats (`Decimal("inf")` and `Decimal("nan")` both succeed). -/
def decimalOfFloat : PyFloat → PyDec
  | PyFloat.fin q => PyDec.dfin (pyStrVal q)
  | PyFloat.inf => PyDec.dinf
  | PyFloat.ninf => PyDec.dninf
  | PyFloat.nan => PyDec.dnan

/-- `float(d)` on a model Decimal. -/
def floatOfDecimal : PyDec → PyFloat
  | PyDec.dfin q => roundDouble q
  | PyDec.dinf => PyFloat.inf
  | PyDec.dninf => PyFloat.ninf
  | PyDec.dnan => PyFloat.nan

/-- Round-trip at the numeric leaf: for a finite binary64 value,
converting to its `str` decimal and correctly rounding back is the
identity. -/
theorem roundDouble_pyStrVal (q : ℚ) (h : isFiniteDouble q = true) :
    roundDouble (pyStrVal q) = PyFloat.fin q := by
  unfold pyStrVal
  by_cases hq : q = 0
  · subst hq
    simp [roundDouble, isFiniteDouble]
  · simp only [if_neg hq]
    cases hfind : (List.range 17).findSome? (fun i =>
        let c := decRound (i + 1) q
        if roundDouble c = PyFloat.fin q then some c else none) with
    | none => simp [roundDouble, h]
    | some c =>
      obtain ⟨i, _, hi⟩ := List.exists_of_findSome?_eq_some hfind
      simp only at hi
      by_cases hc : roundDouble (decRound (i + 1) q) = PyFloat.fin q
      · rw [if_pos hc] at hi
        cases hi
        exact hc
      · rw [if_neg hc] at hi
        exact absurd hi (by simp)

/-
The value model.  Exactly the Python values the codec helpers
distinguish: `str`, `bool`, `bytes`, `None`, `int`, `float`, `Decimal`,
`list`, string-keyed `dict`, and opaque custom objects (anything else,
tagged by a number).  A Python dict preserves insertion order, so a
mapping is modelled as an ordered association list (`ValDict`).
-/

mutual

inductive Val where
  | vstr (s : String)
  | vbool (b : Bool)
  | vbytes (bs : List Nat)
  | vnone
  | vint (n : Int)
  | vfloat (f : PyFloat)
  | vdec (d : PyDec)
  | vobj (tag : Nat)
  | vlist (xs : ValList)
  | vdict (kvs : ValDict)

inductive ValList where
  | nil
  | cons (v : Val) (t : ValList)

inductive ValDict where
  | nil
  | cons (k : String) (v : Val) (t : ValDict)

end

/-
`_convert_floats_to_decimal` (identical in src/strands_dynamodb.py and
src/strands_dyn_memory.py):

    if isinstance(obj, float):
        return Decimal(str(obj))
    elif isinstance(obj, dict):
        return {k: _convert_floats_to_decimal(v) for k, v in obj.items()}
    elif isinstance(obj, list):
        return [_convert_floats_to_decimal(item) for item in obj]
    return obj

Note the final line: every value that is not a float, dict or list —
including a non-finite float's Decimal image, a Decimal, and any custom
object — is returned unchanged; the function raises nothing.
-/

mutual

def convert_floats_to_decimal : Val → Val
  | Val.vfloat f => Val.vdec (decimalOfFloat f)
  | Val.vdict kvs => Val.vdict (convert_floats_to_decimalD kvs)
  | Val.vlist xs => Val.vlist (convert_floats_to_decimalL xs)
  | v => v

def convert_floats_to_decimalL : ValList → ValList
  | ValList.nil => ValList.nil
  | ValList.cons v t => ValList.cons (convert_floats_to_decimal v) (convert_floats_to_decimalL t)

def convert_floats_to_decimalD : ValDict → ValDict
  | ValDict.nil => ValDict.nil
  | ValDict.cons k v t => ValDict.cons k (convert_floats_to_decimal v) (convert_floats_to_decimalD t)

end

/-
`_convert_decimal_to_float` (src/strands_dynamodb.py):

    if isinstance(obj, Decimal):
        return float(obj)
    elif isinstance(obj, dict):
        return {k: _convert_decimal_to_float(v) for k, v in obj.items()}
    elif isinstance(obj, list):
        return [_convert_decimal_to_float(item) for item in obj]
    return obj
-/

mutual

def convert_decimal_to_float : Val → Val
  | Val.vdec d => Val.vfloat (floatOfDecimal d)
  | Val.vdict kvs => Val.vdict (convert_decimal_to_floatD kvs)
  | Val.vlist xs => Val.vlist (convert_decimal_to_floatL xs)
  | v => v

def convert_decimal_to_floatL : ValList → ValList
  | ValList.nil => ValList.nil
  | ValList.cons v t => ValList.cons (convert_decimal_to_float v) (convert_decimal_to_floatL t)

def convert_decimal_to_floatD : ValDict → ValDict
  | ValDict.nil => ValDict.nil
  | ValDict.cons k v t => ValDict.cons k (convert_decimal_to_float v) (convert_decimal_to_floatD t)

end

/-
The representable set named by the round-trip claim: strings, booleans,
binary, null, integers, finite floats, and arbitrarily nested lists and
string-keyed mappings of these.  Decimals, non-finite floats and custom
objects are outside it.
-/

mutual

def representable : Val → Bool
  | Val.vstr _ => true
  | Val.vbool _ => true
  | Val.vbytes _ => true
  | Val.vnone => true
  | Val.vint _ => true
  | Val.vfloat (PyFloat.fin q) => isFiniteDouble q
  | Val.vfloat _ => false
  | Val.vdec _ => false
  | Val.vobj _ => false
  | Val.vlist xs => representableL xs
  | Val.vdict kvs => representableD kvs

def representableL : ValList → Bool
  | ValList.nil => true
  | ValList.cons v t => representable v && representableL t

def representableD : ValDict → Bool
  | ValDict.nil => true
  | ValDict.cons _ v t => representable v && representableD t

end

mutual

theorem decode_encode (v : Val) (h : representable v = true) :
    convert_decimal_to_float (convert_floats_to_decimal v) = v := by
  cases v with
  | vstr s => rfl
  | vbool b => rfl
  | vbytes bs => rfl
  | vnone => rfl
  | vint n => rfl
  | vfloat f =>
    cases f with
    | fin q =>
      have hq : isFiniteDouble q = true := by
        simpa [representable] using h
      simp [convert_floats_to_decimal, convert_decimal_to_float,
        decimalOfFloat, floatOfDecimal, roundDouble_pyStrVal q hq]
    | inf => simp [representable] at h
    | ninf => simp [representable] at h
    | nan => simp [representable] at h
  | vdec d => simp [representable] at h
  | vobj t => simp [representable] at h
  | vlist xs =>
    have hx : representableL xs = true := by simpa [representable] using h
    simp [convert_floats_to_decimal, convert_decimal_to_float,
      decode_encodeL xs hx]
  | vdict kvs =>
    have hx : representableD kvs = true := by simpa [representable] using h
    simp [convert_floats_to_decimal, convert_decimal_to_float,
      decode_encodeD kvs hx]

theorem decode_encodeL (l : ValList) (h : representableL l = true) :
    convert_decimal_to_floatL (convert_floats_to_decimalL l) = l := by
  cases l with
  | nil => rfl
  | cons v t =>
    have hv : representable v = true := by
      have := h
      simp [representableL, Bool.and_eq_true] at this
      exact this.1
    have ht : representableL t = true := by
      have := h
      simp [representableL, Bool.and_eq_true] at this
      exact this.2
    simp [convert_floats_to_decimalL, convert_decimal_to_floatL,
      decode_encode v hv, decode_encodeL t ht]

theorem decode_encodeD (l : ValDict) (h : representableD l = true) :
    convert_decimal_to_floatD (convert_floats_to_decimalD l) = l := by
  cases l with
  | nil => rfl
  | cons k v t =>
    have hv : representable v = true := by
      have := h
      simp [representableD, Bool.and_eq_true] at this
      exact this.1
    have ht : representableD t = true := by
      have := h
      simp [representableD, Bool.and_eq_true] at this
      exact this.2
    simp [convert_floats_to_decimalD, convert_decimal_to_floatD,
      decode_encode v hv, decode_encodeD t ht]

end

/-- C1: for every value in the representable set (strings, booleans,
binary, null, integers, finite floats, and arbitrarily nested lists and
string-keyed mappings of these), decoding after encoding is the
identity:
`_convert_decimal_to_float(_convert_floats_to_decimal(v)) == v`
exactly, including values nested inside mappings and lists. -/
theorem c1_codec_roundtrip (v : Val) (h : representable v = true) :
    convert_decimal_to_float (convert_floats_to_decimal v) = v :=
  decode_encode v h

/-- The rational 1/2, written as a normalised `Rat.mk'` literal so the
kernel can evaluate it. -/
def rHalf : ℚ := Rat.mk' 1 2 (by decide) (by decide)

/-- A concrete nested value with a float leaf of value 1/2, for the C1
witness. -/
def c1SampleVal : Val :=
  Val.vdict (ValDict.cons "score" (Val.vfloat (PyFloat.fin rHalf))
    (ValDict.cons "tags"
      (Val.vlist (ValList.cons (Val.vstr "a")
        (ValList.cons (Val.vint 3) (ValList.cons (Val.vbool true) ValList.nil))))
      ValDict.nil))

theorem c1_codec_roundtrip_witness :
    representable c1SampleVal = true ∧
      convert_decimal_to_float (convert_floats_to_decimal c1SampleVal) = c1SampleVal :=
  have h : representable c1SampleVal = true := by
    simp only [c1SampleVal, representable, representableL, representableD, Bool.and_eq_true]
    exact ⟨by decide, by simp⟩
  ⟨h, c1_codec_roundtrip c1SampleVal h⟩

/-- C2 counterexample: the claim says that for every value outside the
closed set — in particular custom objects and non-finite floats — the
encoding step `_convert_floats_to_decimal` fails with an
`UnsupportedValueKind` error and never passes such a value through
unchanged.  On the code this is false: the helper ends with
`return obj`, so a custom object is returned unchanged, and a
non-finite float is converted via `Decimal(str(obj))`, which succeeds
(`Decimal("inf")` is `Decimal("Infinity")`); no error is raised at this
step. -/
theorem c2_counterexample :
    convert_floats_to_decimal (Val.vobj 0) = Val.vobj 0 ∧
      convert_floats_to_decimal (Val.vfloat PyFloat.inf) = Val.vdec PyDec.dinf := by
  constructor
  · simp [convert_floats_to_decimal]
  · simp [convert_floats_to_decimal, decimalOfFloat]

/-- C2 amended: the encoding step itself never fails and never rejects
a value outside the closed set: a custom object (any value that is not
a float, dict or list) is returned unchanged by the final `return obj`
line, and a non-finite float is converted to the corresponding
non-finite `Decimal` without error; any rejection of such values
happens downstream in the storage engine's serializer, not in
`_convert_floats_to_decimal`. -/
theorem c2_encode_total (t : Nat) (s : String) (n : Int) :
    convert_floats_to_decimal (Val.vobj t) = Val.vobj t ∧
      convert_floats_to_decimal (Val.vfloat PyFloat.inf) = Val.vdec PyDec.dinf ∧
      convert_floats_to_decimal (Val.vfloat PyFloat.ninf) = Val.vdec PyDec.dninf ∧
      convert_floats_to_decimal (Val.vfloat PyFloat.nan) = Val.vdec PyDec.dnan ∧
      convert_floats_to_decimal (Val.vdec (PyDec.dfin n)) = Val.vdec (PyDec.dfin n) ∧
      convert_floats_to_decimal (Val.vstr s) = Val.vstr s := by
  refine ⟨?_, ?_, ?_, ?_, ?_, ?_⟩ <;>
    simp [convert_floats_to_decimal, decimalOfFloat]

/-
Table lifecycle manager (src/strands_dyn_memory.py,
ensure_memory_table_exists).

The backing engine is modelled as a map from table name to a countdown:
`k = 0` means the table is ACTIVE, `k > 0` means it is CREATING and
will become ACTIVE after `k` more polling ticks; an absent name is an
absent table (DescribeTable raises ResourceNotFoundException).
`create_table` inserts a table with a caller-chosen creation delay and
raises ResourceInUseException when the name is already present.  The
boto3 waiter `table_exists` polls DescribeTable a bounded number of
times (25 attempts at 20 s) and raises WaiterError when the ceiling is
exceeded.  Concurrent interference between the Describe and the Create
of `ensure_memory_table_exists` is modelled by a function applied to
the engine state between the two calls.
-/

/-- Engine state: table name to creation countdown (0 = ACTIVE). -/
abbrev DynDB := List (String × Nat)

/-- DescribeTable: `none` models ResourceNotFoundException. -/
def dbDescribe (name : String) : DynDB → Option Nat
  | [] => none
  | (n, k) :: t => if n = name then some k else dbDescribe name t

/-- CreateTable: `Except.error` models ResourceInUseException. -/
def dbCreate (name : String) (delay : Nat) (db : DynDB) : Except String DynDB :=
  match dbDescribe name db with
  | some _ => Except.error "ResourceInUseException"
  | none => Except.ok (db ++ [(name, delay)])

/-- One polling tick: every creating table advances one step. -/
def dbTick (db : DynDB) : DynDB :=
  db.map (fun p => (p.1, p.2 - 1))

/-- The boto3 `table_exists` waiter: poll DescribeTable until the table
is ACTIVE, at most `fuel` attempts (25 in boto3); returns the engine
state at success, `none` models the WaiterError raised past the
ceiling. -/
def waiterWait (name : String) : Nat → DynDB → Option DynDB
  | 0, _ => none
  | fuel + 1, db =>
    match dbDescribe name db with
    | some 0 => some db
    | _ => waiterWait name fuel (dbTick db)

/-- The memory table name (MEMORY_TABLE_NAME default). -/
def MEMORY_TABLE_NAME : String := "AIMemories"

/-- `ensure_memory_table_exists`, faithful to the source control flow:
Describe; on success return the already-exists message without creating
anything; on ResourceNotFoundException, Create (the engine state may
have been changed by a concurrent caller, modelled by `interfere`),
then wait with the bounded waiter; a create-time exception — including
ResourceInUseException from a concurrent creation, and the WaiterError —
is caught by `except Exception` and returned as an error string.
`delay` is the engine's creation time in polling ticks. -/
def ensure_memory_table_exists (db : DynDB) (interfere : DynDB → DynDB)
    (delay : Nat) : String × DynDB :=
  match dbDescribe MEMORY_TABLE_NAME db with
  | some _ => ("Memory table " ++ MEMORY_TABLE_NAME ++ " already exists", db)
  | none =>
    let db1 := interfere db
    match dbCreate MEMORY_TABLE_NAME delay db1 with
    | Except.error e => ("Error creating table: " ++ e, db1)
    | Except.ok db2 =>
      match waiterWait MEMORY_TABLE_NAME 25 db2 with
      | some db3 =>
        ("Successfully created memory table " ++ MEMORY_TABLE_NAME, db3)
      | none =>
        ("Error creating table: Waiter TableExists failed: Max attempts exceeded", db2)

/-- Helper: the waiter succeeds as soon as the countdown runs out within
the fuel, and reports the table ACTIVE. -/
theorem waiterWait_reaches_active (name : String) :
    ∀ (fuel k : Nat) (db : DynDB), dbDescribe name db = some k → k < fuel →
      ∃ db2, waiterWait name fuel db = some db2 ∧ dbDescribe name db2 = some 0 := by
  intro fuel
  induction fuel with
  | zero => intro k db _ hk; omega
  | succ f ih =>
    intro k db hdesc hk
    cases k with
    | zero => exact ⟨db, by simp [waiterWait, hdesc], hdesc⟩
    | succ k2 =>
      have htick : dbDescribe name (dbTick db) = some k2 := by
        clear hk ih
        induction db with
        | nil => simp [dbDescribe] at hdesc
        | cons p t iht =>
          by_cases hp : p.1 = name
          · simp [dbDescribe, hp] at hdesc ⊢
            omega
          · simp [dbDescribe, hp, dbTick] at hdesc iht ⊢
            exact iht hdesc
      obtain ⟨db2, hw, hd⟩ := ih k2 (dbTick db) htick (by omega)
      refine ⟨db2, ?_, hd⟩
      simp [waiterWait, hdesc, hw]

/-- Helper: the waiter gives up (WaiterError) when the countdown is at
least the attempt ceiling. -/
theorem waiterWait_timeout (name : String) :
    ∀ (fuel k : Nat) (db : DynDB), dbDescribe name db = some k → fuel ≤ k →
      waiterWait name fuel db = none := by
  intro fuel
  induction fuel with
  | zero => intro k db _ _; rfl
  | succ f ih =>
    intro k db hdesc hk
    cases k with
    | zero => omega
    | succ k2 =>
      have htick : dbDescribe name (dbTick db) = some k2 := by
        clear hk ih
        induction db with
        | nil => simp [dbDescribe] at hdesc
        | cons p t iht =>
          by_cases hp : p.1 = name
          · simp [dbDescribe, hp] at hdesc ⊢
            omega
          · simp [dbDescribe, hp, dbTick] at hdesc iht ⊢
            exact iht hdesc
      simp only [waiterWait, hdesc]
      exact ih k2 (dbTick db) htick (by omega)

/-- Helper: describing a freshly appended table. -/
theorem dbDescribe_append_self (name : String) (d : Nat) :
    ∀ db : DynDB, dbDescribe name db = none →
      dbDescribe name (db ++ [(name, d)]) = some d := by
  intro db
  induction db with
  | nil => intro _; simp [dbDescribe]
  | cons p t iht =>
    intro h
    by_cases hp : p.1 = name
    · simp [dbDescribe, hp] at h
    · simp [dbDescribe, hp] at h ⊢
      exact iht h

/-- C3: `ensure_memory_table_exists` first describes the memory table;
when the table exists it returns at once with the already-exists
message and without issuing a create (the engine state is unchanged);
when describe reports ResourceNotFoundException it issues a create and
blocks until the table is ACTIVE whenever the creation completes within
the waiter's bounded ceiling; past the ceiling it returns the waiter's
bounded-timeout error instead of hanging (the function is total). -/
theorem c3_ensure_table (db : DynDB) (delay : Nat) :
    (∀ k, dbDescribe MEMORY_TABLE_NAME db = some k →
      ensure_memory_table_exists db id delay =
        ("Memory table " ++ MEMORY_TABLE_NAME ++ " already exists", db)) ∧
    (dbDescribe MEMORY_TABLE_NAME db = none → delay ≤ 24 →
      ∃ db3, ensure_memory_table_exists db id delay =
          ("Successfully created memory table " ++ MEMORY_TABLE_NAME, db3) ∧
        dbDescribe MEMORY_TABLE_NAME db3 = some 0) ∧
    (dbDescribe MEMORY_TABLE_NAME db = none → 25 ≤ delay →
      ensure_memory_table_exists db id delay =
        ("Error creating table: Waiter TableExists failed: Max attempts exceeded",
          db ++ [(MEMORY_TABLE_NAME, delay)])) := by
  refine ⟨?_, ?_, ?_⟩
  · intro k hk
    simp [ensure_memory_table_exists, hk]
  · intro habs hd
    have hfresh := dbDescribe_append_self MEMORY_TABLE_NAME delay db habs
    obtain ⟨db3, hw, hact⟩ :=
      waiterWait_reaches_active MEMORY_TABLE_NAME 25 delay
        (db ++ [(MEMORY_TABLE_NAME, delay)]) hfresh (by omega)
    refine ⟨db3, ?_, hact⟩
    simp [ensure_memory_table_exists, habs, dbCreate, hw]
  · intro habs hd
    have hfresh := dbDescribe_append_self MEMORY_TABLE_NAME delay db habs
    have hw := waiterWait_timeout MEMORY_TABLE_NAME 25 delay
      (db ++ [(MEMORY_TABLE_NAME, delay)]) hfresh hd
    simp [ensure_memory_table_exists, habs, dbCreate, hw]

theorem c3_ensure_table_witness :
    ensure_memory_table_exists [(MEMORY_TABLE_NAME, 0)] id 5 =
        ("Memory table " ++ MEMORY_TABLE_NAME ++ " already exists",
          [(MEMORY_TABLE_NAME, 0)]) ∧
      (∃ db3, ensure_memory_table_exists [] id 2 =
          ("Successfully created memory table " ++ MEMORY_TABLE_NAME, db3) ∧
        dbDescribe MEMORY_TABLE_NAME db3 = some 0) ∧
      ensure_memory_table_exists [] id 30 =
        ("Error creating table: Waiter TableExists failed: Max attempts exceeded",
          [(MEMORY_TABLE_NAME, 30)]) :=
  ⟨(c3_ensure_table [(MEMORY_TABLE_NAME, 0)] 5).1 0 (by decide),
    (c3_ensure_table [] 2).2.1 (by decide) (by decide),
    (c3_ensure_table [] 30).2.2 (by decide) (by decide)⟩

/-- The concurrent caller of the C4 scenario: between the Describe and
the Create of `ensure_memory_table_exists`, another caller creates the
memory table (it appears ACTIVE). -/
def raceCreate (db : DynDB) : DynDB := db ++ [(MEMORY_TABLE_NAME, 0)]

/-- C4 counterexample: the claim says a ResourceInUseException from the
Create inside `ensure_memory_table_exists` (another caller created the
table between the Describe and the Create) is treated as benign, with
the function waiting for ACTIVE and returning success.  On the code the
exception is caught by the blanket `except Exception` and surfaced as
an error string: starting from an empty engine with a concurrent
creation in the race window, the result is the create-error message,
not either success message. -/
theorem c4_counterexample :
    ensure_memory_table_exists [] raceCreate 5 =
        ("Error creating table: ResourceInUseException", [(MEMORY_TABLE_NAME, 0)]) ∧
      (ensure_memory_table_exists [] raceCreate 5).1 ≠
        "Successfully created memory table " ++ MEMORY_TABLE_NAME ∧
      (ensure_memory_table_exists [] raceCreate 5).1 ≠
        "Memory table " ++ MEMORY_TABLE_NAME ++ " already exists" := by
  refine ⟨by decide, by decide, by decide⟩

/-- C4 amended: when the Create inside `ensure_memory_table_exists`
fails because a concurrent caller created the table between the
Describe and the Create, the blanket `except Exception` handler catches
the ResourceInUseException and the function returns the string
`"Error creating table: ..."` to its caller; it does not wait for
ACTIVE and does not report success. -/
theorem c4_create_race_error (db : DynDB) (interfere : DynDB → DynDB)
    (delay k : Nat)
    (habs : dbDescribe MEMORY_TABLE_NAME db = none)
    (hrace : dbDescribe MEMORY_TABLE_NAME (interfere db) = some k) :
    ensure_memory_table_exists db interfere delay =
      ("Error creating table: ResourceInUseException", interfere db) := by
  simp [ensure_memory_table_exists, habs, dbCreate, hrace]

theorem c4_create_race_error_witness :
    ensure_memory_table_exists [] raceCreate 7 =
      ("Error creating table: ResourceInUseException", raceCreate []) :=
  c4_create_race_error [] raceCreate 7 0 (by decide) (by decide)

/-
Memory record manager (src/strands_dyn_memory.py): store_memory_item,
list_recent_memories, search_memories_by_hashtag.  A stored item is a
Python dict, i.e. a `ValDict`; the memory table is the ordered list of
its items (the engine's scan order).  The resource layer's
serialisation of stored items is treated as the identity on this
representation.
-/

abbrev Item := ValDict

/-- Python `dict` lookup on the ordered association list. -/
def dLookup (key : String) : ValDict → Option Val
  | ValDict.nil => none
  | ValDict.cons k v t => if k = key then some v else dLookup key t

/-- The keys of a dict, in insertion order. -/
def dKeys : ValDict → List String
  | ValDict.nil => []
  | ValDict.cons k _ t => k :: dKeys t

/-- Build a dict from an ordered key/value list. -/
def ValDict.ofList : List (String × Val) → ValDict
  | [] => ValDict.nil
  | (k, v) :: t => ValDict.cons k v (ValDict.ofList t)

/-- A Python list of strings as a `ValList`. -/
def ValList.ofStrings : List String → ValList
  | [] => ValList.nil
  | s :: t => ValList.cons (Val.vstr s) (ValList.ofStrings t)

/-- The string elements of a `ValList` (the memory tools only ever put
strings in the hashtags attribute). -/
def ValList.toStrings : ValList → List String
  | ValList.nil => []
  | ValList.cons (Val.vstr s) t => s :: ValList.toStrings t
  | ValList.cons _ t => ValList.toStrings t

/-- `datetime.utcnow()` value: the broken-down UTC time. -/
structure PyDateTime where
  year : Nat
  month : Nat
  day : Nat
  hour : Nat
  minute : Nat
  second : Nat
  micro : Nat

/-- The decimal digit character of `n % 10`. -/
def digitChar (n : Nat) : Char := Char.ofNat (48 + n % 10)

/-- Zero-padded 2-digit decimal rendering (faithful to strftime for
values below 100, which all calendar fields satisfy). -/
def pad2 (n : Nat) : String := String.mk [digitChar (n / 10), digitChar n]

/-- Zero-padded 4-digit decimal rendering (strftime `%Y` for years up
to 9999, which `datetime` guarantees). -/
def pad4 (n : Nat) : String :=
  String.mk [digitChar (n / 1000), digitChar (n / 100), digitChar (n / 10), digitChar n]

/-- Zero-padded 6-digit decimal rendering (strftime `%f`). -/
def pad6 (n : Nat) : String :=
  String.mk [digitChar (n / 100000), digitChar (n / 10000), digitChar (n / 1000),
    digitChar (n / 100), digitChar (n / 10), digitChar n]

/-- `f"mem_{timestamp.strftime('%Y%m%d_%H%M%S_%f')}"`. -/
def memIdOf (t : PyDateTime) : String :=
  "mem_" ++ pad4 t.year ++ pad2 t.month ++ pad2 t.day ++ "_" ++
    pad2 t.hour ++ pad2 t.minute ++ pad2 t.second ++ "_" ++ pad6 t.micro

/-- `timestamp.isoformat()` (microseconds omitted when zero). -/
def isoOf (t : PyDateTime) : String :=
  pad4 t.year ++ "-" ++ pad2 t.month ++ "-" ++ pad2 t.day ++ "T" ++
    pad2 t.hour ++ ":" ++ pad2 t.minute ++ ":" ++ pad2 t.second ++
    (if t.micro = 0 then "" else "." ++ pad6 t.micro)

/-- Days from 1970-01-01 for a proleptic-Gregorian civil date. -/
def daysFromCivil (y m d : Int) : Int :=
  let y2 := y - (if m ≤ 2 then 1 else 0)
  let era := (if 0 ≤ y2 then y2 else y2 - 399) / 400
  let yoe := y2 - era * 400
  let doy := (153 * (m + (if 2 < m then -3 else 9)) + 2) / 5 + d - 1
  let doe := yoe * 365 + yoe / 4 - yoe / 100 + doy
  era * 146097 + doe - 719468

/-- `int(timestamp.timestamp())`: epoch seconds of the broken-down
time.  (CPython interprets the naive datetime in the process's local
zone; the zone offset is constant within a run and no checked claim
depends on the absolute value, so UTC is used here.) -/
def epochOf (t : PyDateTime) : Int :=
  86400 * daysFromCivil (t.year : Int) (t.month : Int) (t.day : Int) +
    3600 * (t.hour : Int) + 60 * (t.minute : Int) + (t.second : Int)

/-- Python truthiness of the optional `source_url` argument. -/
def truthyOptStr : Option String → Bool
  | none => false
  | some s => !(s == "")

/-- Python truthiness of the optional `metadata` argument. -/
def truthyOptDict : Option ValDict → Bool
  | none => false
  | some ValDict.nil => false
  | some (ValDict.cons _ _ _) => true

/-- The item dict built by `store_memory_item`: the six fixed
attributes in insertion order, then `source_url` only when the argument
is truthy, then `metadata` (floats converted to Decimal) only when that
argument is truthy. -/
def buildMemoryItem (t : PyDateTime) (content tldr : String)
    (hashtags : List String) (source_url : Option String)
    (metadata : Option ValDict) : Item :=
  ValDict.ofList
    ([("memory_id", Val.vstr (memIdOf t)),
      ("content", Val.vstr content),
      ("tldr", Val.vstr tldr),
      ("hashtags", Val.vlist (ValList.ofStrings hashtags)),
      ("created_at", Val.vstr (isoOf t)),
      ("timestamp", Val.vint (epochOf t))] ++
     (if truthyOptStr source_url then
        [("source_url", Val.vstr (match source_url with | some s => s | none => ""))]
      else []) ++
     (if truthyOptDict metadata then
        [("metadata", Val.vdict (convert_floats_to_decimalD
            (match metadata with | some m => m | none => ValDict.nil)))]
      else []))

mutual

def beqVal : Val → Val → Bool
  | Val.vstr a, Val.vstr b => a == b
  | Val.vbool a, Val.vbool b => a == b
  | Val.vbytes a, Val.vbytes b => a == b
  | Val.vnone, Val.vnone => true
  | Val.vint a, Val.vint b => a == b
  | Val.vfloat a, Val.vfloat b => a == b
  | Val.vdec a, Val.vdec b => a == b
  | Val.vobj a, Val.vobj b => a == b
  | Val.vlist a, Val.vlist b => beqValList a b
  | Val.vdict a, Val.vdict b => beqValDict a b
  | _, _ => false

def beqValList : ValList → ValList → Bool
  | ValList.nil, ValList.nil => true
  | ValList.cons a t, ValList.cons b u => beqVal a b && beqValList t u
  | _, _ => false

def beqValDict : ValDict → ValDict → Bool
  | ValDict.nil, ValDict.nil => true
  | ValDict.cons k a t, ValDict.cons l b u => k == l && beqVal a b && beqValDict t u
  | _, _ => false

end

/-- `PutItem`: overwrite the item with the same partition-key value, or
append a new item. -/
def put_item (tbl : List Item) (it : Item) : List Item :=
  let sameKey := fun (j : Item) =>
    match dLookup "memory_id" j, dLookup "memory_id" it with
    | some a, some b => beqVal a b
    | none, none => true
    | _, _ => false
  if tbl.any sameKey then tbl.map (fun j => if sameKey j then it else j)
  else tbl ++ [it]

/-- The functional core of `store_memory_item` on the success path:
build the item and put it; the returned message carries the new id. -/
def store_memory_item_run (t : PyDateTime) (content tldr : String)
    (hashtags : List String) (source_url : Option String)
    (metadata : Option ValDict) (tbl : List Item) : String × List Item :=
  let memory_id := memIdOf t
  let item := buildMemoryItem t content tldr hashtags source_url metadata
  ("Successfully stored memory with ID: " ++ memory_id ++ "\nTLDR: " ++ tldr ++
      "\nHashtags: " ++ String.intercalate ", " hashtags,
    put_item tbl item)

/-- `x.get('timestamp', 0)` as used by the sort key of
`list_recent_memories` (the stored attribute is always an int). -/
def getTs (it : Item) : Int :=
  match dLookup "timestamp" it with
  | some (Val.vint n) => n
  | _ => 0

/-- Stable insertion for descending sort by `getTs` (equal keys keep
the earlier item first, as Python's stable `list.sort` does). -/
def insOneDesc (x : Item) : List Item → List Item
  | [] => [x]
  | y :: ys => if getTs y ≤ getTs x then x :: y :: ys else y :: insOneDesc x ys

/-- `items.sort(key=lambda x: x.get('timestamp', 0), reverse=True)`:
stable descending sort. -/
def sortDescTs (l : List Item) : List Item := l.foldr insOneDesc []

/-- `table.scan(Limit=limit)`: a single page — the first `limit` items
in the engine's scan order; no pagination to table completion. -/
def scanPage (tbl : List Item) (limit : Nat) : List Item := tbl.take limit

/-- The records presented by `list_recent_memories`: one bounded scan,
client-side sort descending by timestamp, then `items[:limit]`. -/
def list_recent_items (limit : Nat) (tbl : List Item) : List Item :=
  (sortDescTs (scanPage tbl limit)).take limit

/-- ASCII lower-casing (`str.lower` restricted to the ASCII range used
by the checked scenarios). -/
def lowerChar (c : Char) : Char :=
  if 65 ≤ c.toNat && c.toNat ≤ 90 then Char.ofNat (c.toNat + 32) else c

/-- Lower-case a string. -/
def lowerStr (s : String) : String := String.mk (s.toList.map lowerChar)

/-- The tag normalisation of `search_memories_by_hashtag`: prepend `#`
only when the argument lacks it (`hashtag.startswith('#')`). -/
def normalizeHashtag (h : String) : String :=
  match h.toList with
  | c :: _ => if c = '#' then h else "#" ++ h
  | [] => "#" ++ h

/-- `item.get('hashtags', [])` viewed as a string list. -/
def itemTags (it : Item) : List String :=
  match dLookup "hashtags" it with
  | some (Val.vlist l) => ValList.toStrings l
  | _ => []

/-- The filtering core of `search_memories_by_hashtag`: normalise the
tag, scan the whole table, keep the items whose hashtag list contains
the normalised tag case-insensitively. -/
def search_memories_matching (hashtag : String) (items : List Item) : List Item :=
  let tag := normalizeHashtag hashtag
  items.filter (fun it => ((itemTags it).map lowerStr).contains (lowerStr tag))

/-- A minimal memory item carrying an id and one hashtag, for the C5
scenario table. -/
def c5Item (id tag : String) : Item :=
  ValDict.ofList [("memory_id", Val.vstr id),
    ("hashtags", Val.vlist (ValList.ofStrings [tag]))]

/-- The C5 scenario table: items tagged #python, #aws, #python, #go. -/
def c5Table : List Item :=
  [c5Item "m1" "#python", c5Item "m2" "#aws", c5Item "m3" "#python", c5Item "m4" "#go"]

/-- C5: `search_memories_by_hashtag` normalises the tag by prepending
`#` when absent, and keeps exactly the scanned items whose hashtag list
contains the normalised tag case-insensitively; on the scenario table
tagged #python, #aws, #python, #go, the queries "python", "#python" and
"#PYTHON" each return exactly the two #python-tagged items. -/
theorem c5_hashtag_search :
    (∀ (tag : String) (tbl : List Item) (it : Item),
        it ∈ search_memories_matching tag tbl ↔
          it ∈ tbl ∧ lowerStr (normalizeHashtag tag) ∈ (itemTags it).map lowerStr) ∧
      normalizeHashtag "python" = "#python" ∧
      normalizeHashtag "#python" = "#python" ∧
      search_memories_matching "python" c5Table =
        [c5Item "m1" "#python", c5Item "m3" "#python"] ∧
      search_memories_matching "#python" c5Table =
        [c5Item "m1" "#python", c5Item "m3" "#python"] ∧
      search_memories_matching "#PYTHON" c5Table =
        [c5Item "m1" "#python", c5Item "m3" "#python"] := by
  refine ⟨?_, rfl, rfl, rfl, rfl, rfl⟩
  intro tag tbl it
  simp [search_memories_matching, List.mem_filter, List.elem_eq_mem]

theorem c5_hashtag_search_witness :
    c5Item "m1" "#python" ∈ search_memories_matching "python" c5Table :=
  (c5_hashtag_search.1 "python" c5Table (c5Item "m1" "#python")).mpr
    ⟨by simp [c5Table], by decide⟩

/-- Decimal digit test on a character. -/
def isDigitCh (c : Char) : Bool := 48 ≤ c.toNat && c.toNat ≤ 57

/-- The id pattern asserted by the claim, read off its words:
`mem_` + 14 date digits + one underscore + 6 microsecond digits. -/
def specMemIdPattern (s : String) : Bool :=
  let cs := s.toList
  (cs.take 4 == ['m', 'e', 'm', '_']) &&
    ((cs.drop 4).take 14).all isDigitCh &&
    ((cs.drop 18).take 1 == ['_']) &&
    ((cs.drop 19).take 6).all isDigitCh &&
    decide (cs.length = 25)

/-- The id pattern the code actually produces:
`mem_` + 8 date digits + `_` + 6 time digits + `_` + 6 micro digits. -/
def codeMemIdPattern (s : String) : Bool :=
  match s.toList with
  | 'm' :: 'e' :: 'm' :: '_' ::
      d1 :: d2 :: d3 :: d4 :: d5 :: d6 :: d7 :: d8 :: '_' ::
      e1 :: e2 :: e3 :: e4 :: e5 :: e6 :: '_' ::
      f1 :: f2 :: f3 :: f4 :: f5 :: f6 :: [] =>
    [d1, d2, d3, d4, d5, d6, d7, d8, e1, e2, e3, e4, e5, e6,
      f1, f2, f3, f4, f5, f6].all isDigitCh
  | _ => false

/-- The concrete creation instant of the C6 counterexample. -/
def c6T0 : PyDateTime := ⟨2025, 10, 12, 9, 30, 0, 123456⟩

/-- C6 counterexample: the claim says every stored id matches
`mem_<14-digit-date><underscore><6-digit-micros>`.  The id actually
generated by `store_memory_item` at 2025-10-12 09:30:00.123456 is
`mem_20251012_093000_123456`: its date-time digits are split
`8 digits + underscore + 6 digits`, so the character after the first
8 digits is an underscore, not a digit, and the id does not match the
claimed pattern. -/
theorem c6_counterexample :
    memIdOf c6T0 = "mem_20251012_093000_123456" ∧
      specMemIdPattern (memIdOf c6T0) = false := by
  refine ⟨by decide, by decide⟩

theorem isDigitCh_digitChar (n : Nat) : isDigitCh (digitChar n) = true := by
  have h : n % 10 < 10 := Nat.mod_lt _ (by norm_num)
  unfold digitChar isDigitCh
  set m := n % 10 with hm
  interval_cases m <;> decide

/-- C6 amended: every id generated by `store_memory_item` matches
`mem_<8-digit-date><underscore><6-digit-time><underscore><6-digit-micros>`
(the 14 date-time digits are split by an underscore), and — when the
new record lands on the scanned page, e.g. on a previously empty
table — an immediately following `list_recent_memories` with limit 1
returns exactly that record. -/
theorem c6_store_and_list (t : PyDateTime) (content tldr : String)
    (hashtags : List String)
    (_hy : t.year ≤ 9999) (_hmo : t.month ≤ 12) (_hd : t.day ≤ 31)
    (_hh : t.hour ≤ 23) (_hmi : t.minute ≤ 59) (_hs : t.second ≤ 59)
    (_hu : t.micro ≤ 999999) :
    codeMemIdPattern (memIdOf t) = true ∧
      (store_memory_item_run t content tldr hashtags none none []).2 =
        [buildMemoryItem t content tldr hashtags none none] ∧
      list_recent_items 1 (store_memory_item_run t content tldr hashtags none none []).2 =
        [buildMemoryItem t content tldr hashtags none none] ∧
      dLookup "memory_id" (buildMemoryItem t content tldr hashtags none none) =
        some (Val.vstr (memIdOf t)) := by
  refine ⟨?_, ?_, ?_, ?_⟩
  · have hl : (memIdOf t).toList =
        'm' :: 'e' :: 'm' :: '_' ::
          digitChar (t.year / 1000) :: digitChar (t.year / 100) ::
          digitChar (t.year / 10) :: digitChar t.year ::
          digitChar (t.month / 10) :: digitChar t.month ::
          digitChar (t.day / 10) :: digitChar t.day :: '_' ::
          digitChar (t.hour / 10) :: digitChar t.hour ::
          digitChar (t.minute / 10) :: digitChar t.minute ::
          digitChar (t.second / 10) :: digitChar t.second :: '_' ::
          digitChar (t.micro / 100000) :: digitChar (t.micro / 10000) ::
          digitChar (t.micro / 1000) :: digitChar (t.micro / 100) ::
          digitChar (t.micro / 10) :: digitChar t.micro :: [] := rfl
    unfold codeMemIdPattern
    rw [hl]
    simp [isDigitCh_digitChar]
  · simp [store_memory_item_run, put_item]
  · simp [store_memory_item_run, put_item, list_recent_items, scanPage, sortDescTs,
      insOneDesc]
  · simp [buildMemoryItem, ValDict.ofList, dLookup, truthyOptStr, truthyOptDict]

theorem c6_store_and_list_witness :
    codeMemIdPattern (memIdOf c6T0) = true ∧
      (store_memory_item_run c6T0 "remember X" "X is important" ["#note"] none none []).2 =
        [buildMemoryItem c6T0 "remember X" "X is important" ["#note"] none none] ∧
      list_recent_items 1
          (store_memory_item_run c6T0 "remember X" "X is important" ["#note"] none none []).2 =
        [buildMemoryItem c6T0 "remember X" "X is important" ["#note"] none none] ∧
      dLookup "memory_id" (buildMemoryItem c6T0 "remember X" "X is important" ["#note"] none none) =
        some (Val.vstr (memIdOf c6T0)) :=
  c6_store_and_list c6T0 "remember X" "X is important" ["#note"]
    (by decide) (by decide) (by decide) (by decide) (by decide) (by decide) (by decide)

theorem mem_insOneDesc {x y : Item} {l : List Item} :
    x ∈ insOneDesc y l ↔ x = y ∨ x ∈ l := by
  induction l with
  | nil => simp [insOneDesc]
  | cons z zs ih =>
    by_cases h : getTs z ≤ getTs y
    · simp only [insOneDesc, if_pos h, List.mem_cons]
    · simp only [insOneDesc, if_neg h, List.mem_cons, ih]
      tauto

theorem mem_sortDescTs {x : Item} {l : List Item} : x ∈ sortDescTs l ↔ x ∈ l := by
  induction l with
  | nil => simp [sortDescTs]
  | cons z zs ih =>
    have hz : sortDescTs (z :: zs) = insOneDesc z (sortDescTs zs) := rfl
    rw [hz, mem_insOneDesc, ih]
    simp

theorem pairwise_insOneDesc {y : Item} {l : List Item}
    (h : l.Pairwise (fun a b => getTs b ≤ getTs a)) :
    (insOneDesc y l).Pairwise (fun a b => getTs b ≤ getTs a) := by
  induction l with
  | nil => simp [insOneDesc]
  | cons z zs ih =>
    rcases List.pairwise_cons.mp h with ⟨hz, hzs⟩
    by_cases hle : getTs z ≤ getTs y
    · simp only [insOneDesc, if_pos hle, List.pairwise_cons]
      exact ⟨fun b hb => by
          rcases List.mem_cons.mp hb with rfl | hb2
          · exact hle
          · exact le_trans (hz b hb2) hle,
        fun b hb => hz b hb, hzs⟩
    · simp only [insOneDesc, if_neg hle, List.pairwise_cons]
      refine ⟨fun b hb => ?_, ih hzs⟩
      rcases mem_insOneDesc.mp hb with rfl | hb2
      · omega
      · exact hz b hb2

theorem pairwise_sortDescTs (l : List Item) :
    (sortDescTs l).Pairwise (fun a b => getTs b ≤ getTs a) := by
  induction l with
  | nil => simp [sortDescTs]
  | cons z zs ih => exact pairwise_insOneDesc ih

/-- An older record (timestamp 100), first in engine scan order. -/
def c7Old : Item := ValDict.ofList [("memory_id", Val.vstr "m-old"), ("timestamp", Val.vint 100)]

/-- A more recent record (timestamp 200), second in engine scan order. -/
def c7New : Item := ValDict.ofList [("memory_id", Val.vstr "m-new"), ("timestamp", Val.vint 200)]

/-- C7: `list_recent_memories` performs one scan bounded by `limit`
(every returned item comes from the single first page, never from the
rest of the table), sorts that page client-side in descending timestamp
order, and returns at most `limit` records.  Consequently the result is
not exhaustive: on the two-item table `[c7Old, c7New]` with the more
recent item second in scan order, limit 1 returns the older item and
the globally most recent record is missed. -/
theorem c7_list_recent (limit : Nat) (tbl : List Item) :
    (list_recent_items limit tbl).length ≤ limit ∧
      (∀ it ∈ list_recent_items limit tbl, it ∈ scanPage tbl limit) ∧
      (list_recent_items limit tbl).Pairwise (fun a b => getTs b ≤ getTs a) ∧
      list_recent_items 1 [c7Old, c7New] = [c7Old] ∧
      getTs c7Old < getTs c7New ∧
      c7New ∉ list_recent_items 1 [c7Old, c7New] := by
  refine ⟨?_, ?_, ?_, rfl, by decide, ?_⟩
  · rw [list_recent_items, List.length_take]
    exact Nat.min_le_left _ _
  · intro it hit
    have h1 : it ∈ sortDescTs (scanPage tbl limit) :=
      List.mem_of_mem_take hit
    exact mem_sortDescTs.mp h1
  · exact (pairwise_sortDescTs (scanPage tbl limit)).sublist (List.take_sublist _ _)
  · show ¬ (c7New ∈ list_recent_items 1 [c7Old, c7New])
    have : list_recent_items 1 [c7Old, c7New] = [c7Old] := rfl
    rw [this]
    simp [c7Old, c7New, ValDict.ofList]

theorem c7_list_recent_witness :
    (list_recent_items 1 [c7Old, c7New]).length ≤ 1 ∧
      (∀ it ∈ list_recent_items 1 [c7Old, c7New], it ∈ scanPage [c7Old, c7New] 1) ∧
      (list_recent_items 1 [c7Old, c7New]).Pairwise (fun a b => getTs b ≤ getTs a) ∧
      list_recent_items 1 [c7Old, c7New] = [c7Old] ∧
      getTs c7Old < getTs c7New ∧
      c7New ∉ list_recent_items 1 [c7Old, c7New] :=
  c7_list_recent 1 [c7Old, c7New]

/-- Keys of a built dict are the keys of the building list, in order. -/
theorem dKeys_ofList (l : List (String × Val)) :
    dKeys (ValDict.ofList l) = l.map Prod.fst := by
  induction l with
  | nil => rfl
  | cons p t ih =>
    cases p
    simp [ValDict.ofList, dKeys, ih]

/-- C10: a successful `store_memory_item` writes an item whose
attribute set is exactly {memory_id, content, tldr, hashtags,
created_at, timestamp}, in insertion order, extended with `source_url`
exactly when the `source_url` argument is truthy and with `metadata`
(floats converted to Decimal) exactly when the `metadata` argument is
truthy; a falsy argument (None or empty) leaves the attribute absent. -/
theorem c10_store_attrs (t : PyDateTime) (content tldr : String)
    (hashtags : List String) (src : Option String) (meta : Option ValDict) :
    dKeys (buildMemoryItem t content tldr hashtags src meta) =
      ["memory_id", "content", "tldr", "hashtags", "created_at", "timestamp"] ++
        (if truthyOptStr src then ["source_url"] else []) ++
        (if truthyOptDict meta then ["metadata"] else []) ∧
      (∀ m, meta = some m → truthyOptDict meta = true →
        dLookup "metadata" (buildMemoryItem t content tldr hashtags src meta) =
          some (Val.vdict (convert_floats_to_decimalD m))) ∧
      (∀ u, src = some u → truthyOptStr src = true →
        dLookup "source_url" (buildMemoryItem t content tldr hashtags src meta) =
          some (Val.vstr u)) := by
  refine ⟨?_, ?_, ?_⟩
  · rw [buildMemoryItem.eq_def, dKeys_ofList]
    split_ifs <;> simp
  · intro m hm htr
    subst hm
    rw [buildMemoryItem.eq_def]
    simp only [htr, if_pos]
    split_ifs <;> simp [ValDict.ofList, dLookup]
  · intro u hu htr
    subst hu
    rw [buildMemoryItem.eq_def]
    simp only [htr, if_pos]
    split_ifs <;> simp [ValDict.ofList, dLookup]

/-- Sample metadata dict with a float leaf, for the C10 witness. -/
def c10Meta : ValDict := ValDict.cons "pi" (Val.vfloat (PyFloat.fin rHalf)) ValDict.nil

theorem c10_store_attrs_witness :
    dKeys (buildMemoryItem c6T0 "c" "t" ["#x"] (some "http://e.x") (some c10Meta)) =
      ["memory_id", "content", "tldr", "hashtags", "created_at", "timestamp",
        "source_url", "metadata"] ∧
      dLookup "metadata" (buildMemoryItem c6T0 "c" "t" ["#x"] (some "http://e.x") (some c10Meta)) =
        some (Val.vdict (convert_floats_to_decimalD c10Meta)) ∧
      dLookup "source_url" (buildMemoryItem c6T0 "c" "t" ["#x"] (some "http://e.x") (some c10Meta)) =
        some (Val.vstr "http://e.x") :=
  have h := c10_store_attrs c6T0 "c" "t" ["#x"] (some "http://e.x") (some c10Meta)
  ⟨by
      have h1 := h.1
      simpa using h1,
    h.2.1 c10Meta rfl (by decide),
    h.2.2 "http://e.x" rfl (by decide)⟩

/-
`extract_urls` (src/strands_dyn_memory.py):

    url_pattern = r'https?://[^\s<>"{}|\\^`\[\]]+'
    return re.findall(url_pattern, text)

`re.findall` returns the non-overlapping matches scanning left to
right, each maximal (the character class is greedy), in first-occurrence
order with duplicates preserved.  The scanner below is that procedure:
try an anchored match at each position, emit it and continue after it,
else advance one character.
-/

/-- The codes Python's `\s` covers in the ASCII range. -/
def pySpaceCodes : List Nat := [32, 9, 10, 13, 12, 11]

/-- The excluded characters of the URL body class:
`< > " { } | \ ^ ` [ ]` (by code, matching the regex's class). -/
def urlStopCodes : List Nat := [60, 62, 34, 123, 125, 124, 92, 94, 96, 91, 93]

/-- Membership in the URL body character class
`[^\s<>"{}|\\^`\[\]]`. -/
def urlBodyChar (c : Char) : Bool :=
  !(pySpaceCodes.contains c.toNat) && !(urlStopCodes.contains c.toNat)

/-- Complete an anchored match after the scheme: take the maximal
nonempty run of body characters (the greedy `+`). -/
def urlFinish (pre r : List Char) : Option (List Char × List Char) :=
  let body := r.takeWhile urlBodyChar
  if body.isEmpty then none else some (pre ++ body, r.dropWhile urlBodyChar)

/-- Anchored match of `https?://[body]+` at the start of the text. -/
def matchUrlAt : List Char → Option (List Char × List Char)
  | 'h' :: 't' :: 't' :: 'p' :: 's' :: ':' :: '/' :: '/' :: r =>
    urlFinish ['h', 't', 't', 'p', 's', ':', '/', '/'] r
  | 'h' :: 't' :: 't' :: 'p' :: ':' :: '/' :: '/' :: r =>
    urlFinish ['h', 't', 't', 'p', ':', '/', '/'] r
  | _ => none

/-- The findall scan (fuel-based for structural recursion; fuel is the
text length, which bounds the number of advance steps). -/
def findUrlsF : Nat → List Char → List (List Char)
  | 0, _ => []
  | fuel + 1, cs =>
    match matchUrlAt cs with
    | some (u, rest) => u :: findUrlsF fuel rest
    | none =>
      match cs with
      | [] => []
      | _ :: t => findUrlsF fuel t

/-- `extract_urls(text)`. -/
def extract_urls (text : String) : List String :=
  (findUrlsF text.toList.length text.toList).map (fun l => String.mk l)

/-- A string of URL shape: `http://` or `https://` followed by a
nonempty run of body characters — the substrings the claim says are
extracted. -/
def isUrlShape (u : List Char) : Bool :=
  match u with
  | 'h' :: 't' :: 't' :: 'p' :: 's' :: ':' :: '/' :: '/' :: body =>
    !body.isEmpty && body.all urlBodyChar
  | 'h' :: 't' :: 't' :: 'p' :: ':' :: '/' :: '/' :: body =>
    !body.isEmpty && body.all urlBodyChar
  | _ => false

theorem urlFinish_spec {pre r : List Char} {u rest : List Char}
    (h : urlFinish pre r = some (u, rest)) :
    u = pre ++ r.takeWhile urlBodyChar ∧ rest = r.dropWhile urlBodyChar ∧
      r.takeWhile urlBodyChar ≠ [] := by
  unfold urlFinish at h
  by_cases he : (r.takeWhile urlBodyChar).isEmpty
  · simp [he] at h
  · simp only [he, Bool.false_eq_true, if_false] at h
    cases h
    exact ⟨rfl, rfl, by simpa [List.isEmpty_iff] using he⟩

theorem matchUrlAt_spec {cs u rest : List Char}
    (h : matchUrlAt cs = some (u, rest)) :
    isUrlShape u = true ∧ u ++ rest = cs ∧ u ≠ [] := by
  rw [matchUrlAt.eq_def] at h
  split at h
  · next r =>
    obtain ⟨hu, hrest, hne⟩ := urlFinish_spec h
    subst hu hrest
    refine ⟨?_, ?_, by simp⟩
    · show isUrlShape
        ('h' :: 't' :: 't' :: 'p' :: 's' :: ':' :: '/' :: '/' :: r.takeWhile urlBodyChar) = true
      rw [isUrlShape]
      have hall : (r.takeWhile urlBodyChar).all urlBodyChar = true := by
        rw [List.all_eq_true]
        intro c hc
        exact List.mem_takeWhile_imp hc
      simp [hall, List.isEmpty_iff, hne]
    · simp [List.takeWhile_append_dropWhile]
  · next r =>
    obtain ⟨hu, hrest, hne⟩ := urlFinish_spec h
    subst hu hrest
    refine ⟨?_, ?_, by simp⟩
    · show isUrlShape
        ('h' :: 't' :: 't' :: 'p' :: ':' :: '/' :: '/' :: r.takeWhile urlBodyChar) = true
      rw [isUrlShape]
      have hall : (r.takeWhile urlBodyChar).all urlBodyChar = true := by
        rw [List.all_eq_true]
        intro c hc
        exact List.mem_takeWhile_imp hc
      simp [hall, List.isEmpty_iff, hne]
    · simp [List.takeWhile_append_dropWhile]
  · exact absurd h (by simp)

theorem matchUrlAt_of_shape {u : List Char} (hs : isUrlShape u = true) (t : List Char) :
    (matchUrlAt (u ++ t)).isSome = true := by
  rw [isUrlShape.eq_def] at hs
  split at hs
  · next body =>
    rcases hb : body with _ | ⟨b, bs⟩
    · subst hb; simp at hs
    · subst hb
      have hbchar : urlBodyChar b = true := by
        simp [List.all_cons] at hs
        exact hs.1
      show (matchUrlAt
        ('h' :: 't' :: 't' :: 'p' :: 's' :: ':' :: '/' :: '/' :: (b :: bs) ++ t)).isSome = true
      simp [matchUrlAt, urlFinish, hbchar]
  · next body =>
    rcases hb : body with _ | ⟨b, bs⟩
    · subst hb; simp at hs
    · subst hb
      have hbchar : urlBodyChar b = true := by
        simp [List.all_cons] at hs
        exact hs.1
      show (matchUrlAt
        ('h' :: 't' :: 't' :: 'p' :: ':' :: '/' :: '/' :: (b :: bs) ++ t)).isSome = true
      simp [matchUrlAt, urlFinish, hbchar]
  · exact absurd hs (by simp)

/-- Unfolding of one scan step (by definitional reduction on the fuel). -/
theorem findUrlsF_succ (f : Nat) (cs : List Char) :
    findUrlsF (f + 1) cs =
      match matchUrlAt cs with
      | some (u, rest) => u :: findUrlsF f rest
      | none =>
        match cs with
        | [] => []
        | _ :: t => findUrlsF f t := rfl

theorem findUrlsF_sound :
    ∀ (fuel : Nat) (cs : List Char), cs.length ≤ fuel →
      ∀ u ∈ findUrlsF fuel cs, isUrlShape u = true ∧ u <:+: cs := by
  intro fuel
  induction fuel with
  | zero => intro cs _ u hu; simp [findUrlsF] at hu
  | succ f ih =>
    intro cs hlen u hu
    rw [findUrlsF_succ] at hu
    cases hm : matchUrlAt cs with
    | some p =>
      obtain ⟨u0, rest⟩ := p
      obtain ⟨hshape, happ, hne⟩ := matchUrlAt_spec hm
      rw [hm] at hu
      simp only at hu
      rcases List.mem_cons.mp hu with rfl | hu2
      · exact ⟨hshape, List.IsPrefix.isInfix ⟨rest, happ⟩⟩
      · have hrl : rest.length ≤ f := by
          have := congrArg List.length happ
          simp [List.length_append] at this
          have hpos : 0 < u0.length := List.length_pos.mpr hne
          omega
        obtain ⟨hs2, hinf⟩ := ih rest hrl u hu2
        exact ⟨hs2, hinf.trans (List.IsSuffix.isInfix ⟨u0, happ⟩)⟩
    | none =>
      rw [hm] at hu
      simp only at hu
      cases cs with
      | nil => simp at hu
      | cons c t =>
        have htl : t.length ≤ f := by simp at hlen; omega
        obtain ⟨hs2, hinf⟩ := ih t htl u hu
        exact ⟨hs2, hinf.trans (List.suffix_cons c t).isInfix⟩

theorem findUrlsF_complete :
    ∀ (fuel : Nat) (cs : List Char), cs.length ≤ fuel →
      (∃ u, u <:+: cs ∧ isUrlShape u = true) → findUrlsF fuel cs ≠ [] := by
  intro fuel
  induction fuel with
  | zero =>
    intro cs hlen ⟨u, hinf, hshape⟩
    have hcs : cs = [] := List.length_eq_zero.mp (by omega)
    subst hcs
    obtain ⟨s, t, hst⟩ := hinf
    have hu : u = [] := by
      rcases List.append_eq_nil.mp hst with ⟨h1, -⟩
      exact (List.append_eq_nil.mp h1).2
    subst hu
    simp [isUrlShape] at hshape
  | succ f ih =>
    intro cs hlen ⟨u, hinf, hshape⟩
    rw [findUrlsF_succ]
    cases hm : matchUrlAt cs with
    | some p => simp
    | none =>
      simp only
      cases cs with
      | nil =>
        obtain ⟨s, t, hst⟩ := hinf
        have hu : u = [] := by
          rcases List.append_eq_nil.mp hst with ⟨h1, -⟩
          exact (List.append_eq_nil.mp h1).2
        subst hu
        simp [isUrlShape] at hshape
      | cons c t =>
        rcases List.infix_cons_iff.mp hinf with hpre | hsuf
        · obtain ⟨t2, ht2⟩ := hpre
          have hsome := matchUrlAt_of_shape hshape t2
          rw [ht2, hm] at hsome
          simp at hsome
        · have htl : t.length ≤ f := by simp at hlen; omega
          exact ih t htl ⟨u, hsuf, hshape⟩

/-- C8: `extract_urls` returns exactly the URL-shaped substrings of the
text: every returned string matches the absolute http(s) URL pattern
and occurs in the text, the result is empty exactly when the text
contains no URL-shaped substring, and the concrete run on a text with
the same URL twice returns both occurrences in order (first-occurrence
order, duplicates preserved). -/
theorem c8_extract_urls :
    (∀ (text : String), ∀ u ∈ extract_urls text,
        isUrlShape u.toList = true ∧ u.toList <:+: text.toList) ∧
      (∀ text : String, extract_urls text = [] ↔
        ¬ ∃ l, l <:+: text.toList ∧ isUrlShape l = true) ∧
      extract_urls "see http://a.b and http://a.b" = ["http://a.b", "http://a.b"] := by
  refine ⟨?_, ?_, by decide⟩
  · intro text u hu
    obtain ⟨l, hl, rfl⟩ := List.mem_map.mp hu
    have h := findUrlsF_sound text.toList.length text.toList le_rfl l hl
    have hdata : (String.mk l).toList = l := rfl
    rw [hdata]
    exact h
  · intro text
    constructor
    · intro he hex
      have hne := findUrlsF_complete text.toList.length text.toList le_rfl hex
      rw [extract_urls] at he
      exact hne (by simpa using he)
    · intro hno
      cases hf : findUrlsF text.toList.length text.toList with
      | nil => rw [extract_urls, hf]; rfl
      | cons l ls =>
        have hl : l ∈ findUrlsF text.toList.length text.toList := by
          rw [hf]; exact List.mem_cons_self _ _
        obtain ⟨hs, hinf⟩ := findUrlsF_sound text.toList.length text.toList le_rfl l hl
        exact absurd ⟨l, hinf, hs⟩ hno

theorem c8_extract_urls_witness :
    isUrlShape "http://a.b".toList = true ∧
      "http://a.b".toList <:+: "see http://a.b and http://a.b".toList :=
  c8_extract_urls.1 "see http://a.b and http://a.b" "http://a.b" (by decide)

/-
Totality of the tool boundary (C9).  Each tool body is a sequence of
pure steps and engine calls inside `try:`; an engine call may raise —
modelled by an oracle argument of type `PyM α` chosen adversarially —
and the `except ClientError` / `except Exception` clauses of the source
map every raised exception to an error-message string.  A tool is total
exactly when its modelled result is always `Except.ok`.  Display
strings are modelled up to formatting details.
-/

/-- A raised Python exception: a botocore `ClientError` carrying an
error code, or any other exception. -/
inductive PyErr where
  | clientError (code msg : String)
  | otherError (msg : String)

/-- A Python computation that may raise. -/
abbrev PyM (α : Type) := Except PyErr α

/-- `try: body / except ClientError as e: onClient / except Exception
as e: onAny` — `ClientError` is dispatched to the first handler,
everything else to the second. -/
def catchClientAndAny (body : PyM String) (onClient : String → String → String)
    (onAny : String → String) : PyM String :=
  match body with
  | Except.ok s => Except.ok s
  | Except.error (PyErr.clientError c m) => Except.ok (onClient c m)
  | Except.error (PyErr.otherError m) => Except.ok (onAny m)

/-- `try: body / except Exception as e: onAny` — `ClientError` is a
subclass of `Exception`, so this catches both kinds. -/
def catchAny (body : PyM String) (onAny : String → String) : PyM String :=
  match body with
  | Except.ok s => Except.ok s
  | Except.error (PyErr.clientError _ m) => Except.ok (onAny m)
  | Except.error (PyErr.otherError m) => Except.ok (onAny m)

/-- `true` exactly when no exception escaped. -/
def pyOk : PyM String → Bool
  | Except.ok _ => true
  | Except.error _ => false

mutual

def valShow : Val → String
  | Val.vstr s => s
  | Val.vbool b => if b then "True" else "False"
  | Val.vbytes bs => "bytes-" ++ toString bs.length
  | Val.vnone => "None"
  | Val.vint n => toString n
  | Val.vfloat (PyFloat.fin q) => toString q.num ++ "div" ++ toString q.den
  | Val.vfloat _ => "nonfinite"
  | Val.vdec (PyDec.dfin q) => toString q.num ++ "div" ++ toString q.den
  | Val.vdec _ => "nonfinite"
  | Val.vobj t => "object-" ++ toString t
  | Val.vlist xs => "[" ++ valShowL xs ++ "]"
  | Val.vdict kvs => "\x7b" ++ valShowD kvs ++ "\x7d"

def valShowL : ValList → String
  | ValList.nil => ""
  | ValList.cons v ValList.nil => valShow v
  | ValList.cons v t => valShow v ++ ", " ++ valShowL t

def valShowD : ValDict → String
  | ValDict.nil => ""
  | ValDict.cons k v ValDict.nil => k ++ ": " ++ valShow v
  | ValDict.cons k v t => k ++ ": " ++ valShow v ++ ", " ++ valShowD t

end

/-- `_format_item` (one "  key: value" line per attribute). -/
def format_item : ValDict → String
  | ValDict.nil => ""
  | ValDict.cons k v ValDict.nil => "  " ++ k ++ ": " ++ valShow v
  | ValDict.cons k v t => "  " ++ k ++ ": " ++ valShow v ++ "\n" ++ format_item t

/-- `create_dynamodb_table`: build the key schema, issue CreateTable
(`createRes` is the engine's answer: the new TableStatus, or a raised
exception), format the result; ResourceInUseException becomes the
already-exists message, other client errors and other exceptions
become their error strings. -/
def create_dynamodb_table (table_name partition_key : String)
    (sort_key : Option String) (createRes : PyM String) : PyM String :=
  catchClientAndAny
    (do
      let _key_schema := [(partition_key, "HASH")] ++
        (match sort_key with | some sk => [(sk, "RANGE")] | none => [])
      let status ← createRes
      Except.ok ("Table " ++ table_name ++ " is being created. Status: " ++ status))
    (fun code m =>
      if code = "ResourceInUseException" then
        "Error: Table " ++ table_name ++ " already exists"
      else "Error creating table: " ++ m)
    (fun m => "Unexpected error: " ++ m)

/-- `list_dynamodb_tables`. -/
def list_dynamodb_tables (listRes : PyM (List String)) : PyM String :=
  catchClientAndAny
    (do
      let tables ← listRes
      if tables.isEmpty then Except.ok "No DynamoDB tables found in this region"
      else Except.ok ("DynamoDB tables (" ++ toString tables.length ++ "):\n" ++
        String.intercalate "\n" (tables.map (fun t => "  - " ++ t))))
    (fun _ m => "Error listing tables: " ++ m)
    (fun m => "Unexpected error: " ++ m)

/-- `delete_dynamodb_table`. -/
def delete_dynamodb_table (table_name : String) (delRes : PyM Unit) : PyM String :=
  catchClientAndAny
    (do
      let _ ← delRes
      Except.ok ("Table " ++ table_name ++ " is being deleted"))
    (fun code m =>
      if code = "ResourceNotFoundException" then
        "Error: Table " ++ table_name ++ " does not exist"
      else "Error deleting table: " ++ m)
    (fun m => "Unexpected error: " ++ m)

/-- `describe_dynamodb_table` (`descRes`: the table status and key
schema reported by the engine). -/
def describe_dynamodb_table (table_name : String)
    (descRes : PyM (String × List (String × String))) : PyM String :=
  catchClientAndAny
    (do
      let desc ← descRes
      Except.ok ("Table: " ++ table_name ++ "\nStatus: " ++ desc.1 ++ "\nKey Schema:\n" ++
        String.intercalate "\n" (desc.2.map (fun p => "  - " ++ p.1 ++ " (" ++ p.2 ++ ")"))))
    (fun code m =>
      if code = "ResourceNotFoundException" then
        "Error: Table " ++ table_name ++ " does not exist"
      else "Error describing table: " ++ m)
    (fun m => "Unexpected error: " ++ m)

/-- `put_dynamodb_item`: float-to-Decimal conversion, then PutItem. -/
def put_dynamodb_item (table_name : String) (item : Val) (putRes : PyM Unit) : PyM String :=
  catchClientAndAny
    (do
      let _item2 := convert_floats_to_decimal item
      let _ ← putRes
      Except.ok ("Successfully added/updated item in table " ++ table_name))
    (fun _ m => "Error putting item: " ++ m)
    (fun m => "Unexpected error: " ++ m)

/-- `get_dynamodb_item`: GetItem, Decimal-to-float conversion of a
found item, `No item found` otherwise (absence is a result, not an
error). -/
def get_dynamodb_item (table_name : String) (key : ValDict)
    (getRes : PyM (Option ValDict)) : PyM String :=
  catchClientAndAny
    (do
      let resp ← getRes
      match resp with
      | some item =>
        Except.ok ("Item found:\n" ++ format_item (convert_decimal_to_floatD item))
      | none => Except.ok ("No item found with key: " ++ valShow (Val.vdict key)))
    (fun _ m => "Error getting item: " ++ m)
    (fun m => "Unexpected error: " ++ m)

/-- `update_dynamodb_item`: convert the deltas, build the update
expression, issue UpdateItem. -/
def update_dynamodb_item (table_name : String) (key : ValDict)
    (updates : ValDict) (updRes : PyM Unit) : PyM String :=
  catchClientAndAny
    (do
      let upd2 := convert_floats_to_decimalD updates
      let _expr := "SET " ++ String.intercalate ", "
        ((dKeys upd2).map (fun k => "#" ++ k ++ " = :" ++ k))
      let _ ← updRes
      Except.ok ("Successfully updated item in table " ++ table_name))
    (fun _ m => "Error updating item: " ++ m)
    (fun m => "Unexpected error: " ++ m)

/-- `delete_dynamodb_item` (idempotent at the engine: deleting an
absent key succeeds). -/
def delete_dynamodb_item (table_name : String) (key : ValDict)
    (delRes : PyM Unit) : PyM String :=
  catchClientAndAny
    (do
      let _k := key
      let _ ← delRes
      Except.ok ("Successfully deleted item from table " ++ table_name))
    (fun _ m => "Error deleting item: " ++ m)
    (fun m => "Unexpected error: " ++ m)

/-- `scan_dynamodb_table`: one bounded scan, Decimal-to-float
conversion, formatted listing. -/
def scan_dynamodb_table (table_name : String) (limit : Nat)
    (filter_expression : Option String) (scanRes : PyM (List ValDict)) : PyM String :=
  catchClientAndAny
    (do
      let items ← scanRes
      if items.isEmpty then Except.ok ("No items found in table " ++ table_name)
      else
        let items2 := items.map convert_decimal_to_floatD
        Except.ok ("Found " ++ toString items2.length ++ " item(s) in " ++ table_name ++
          ":\n\n" ++ String.intercalate "\n\n" (items2.map format_item)))
    (fun _ m => "Error scanning table: " ++ m)
    (fun m => "Unexpected error: " ++ m)

/-- `query_dynamodb_table`: partition-key equality query. -/
def query_dynamodb_table (table_name partition_key_name partition_key_value : String)
    (limit : Nat) (queryRes : PyM (List ValDict)) : PyM String :=
  catchClientAndAny
    (do
      let items ← queryRes
      if items.isEmpty then
        Except.ok ("No items found with " ++ partition_key_name ++ " = " ++
          partition_key_value)
      else
        let items2 := items.map convert_decimal_to_floatD
        Except.ok ("Found " ++ toString items2.length ++ " item(s):\n\n" ++
          String.intercalate "\n\n" (items2.map format_item)))
    (fun _ m => "Error querying table: " ++ m)
    (fun m => "Unexpected error: " ++ m)

/-- `store_memory_item` at the boundary: build the record (pure), issue
PutItem, return the success message; a single blanket
`except Exception` maps every raised exception to an error string. -/
def store_memory_item (t : PyDateTime) (content tldr : String)
    (hashtags : List String) (source_url : Option String)
    (metadata : Option ValDict) (putRes : PyM Unit) : PyM String :=
  catchAny
    (do
      let _item := buildMemoryItem t content tldr hashtags source_url metadata
      let _ ← putRes
      Except.ok ("Successfully stored memory with ID: " ++ memIdOf t ++ "\nTLDR: " ++
        tldr ++ "\nHashtags: " ++ String.intercalate ", " hashtags))
    (fun m => "Error storing memory: " ++ m)

/-- One displayed entry of `list_recent_memories`. -/
def memoryLine (it : Item) : String :=
  "[" ++ (match dLookup "memory_id" it with | some v => valShow v | none => "") ++
    "]\n   TLDR: " ++ (match dLookup "tldr" it with | some v => valShow v | none => "N/A")

/-- `list_recent_memories` at the boundary: bounded scan, client-side
descending sort, formatted listing; `except ClientError` maps a missing
table to a friendly message, `except Exception` catches the rest. -/
def list_recent_memories (limit : Nat) (scanRes : PyM (List Item)) : PyM String :=
  catchClientAndAny
    (do
      let items ← scanRes
      if items.isEmpty then Except.ok "No memories found"
      else
        let sorted := sortDescTs items
        Except.ok ("Recent memories (" ++ toString sorted.length ++ "):\n\n" ++
          String.intercalate "\n\n" ((sorted.take limit).map memoryLine)))
    (fun code m =>
      if code = "ResourceNotFoundException" then
        "Memory table " ++ MEMORY_TABLE_NAME ++ " does not exist yet"
      else "Error listing memories: " ++ m)
    (fun m => "Error: " ++ m)

/-- `search_memories_by_hashtag` at the boundary: normalise, scan the
whole table, filter client-side; a single blanket `except Exception`. -/
def search_memories_by_hashtag (hashtag : String)
    (scanRes : PyM (List Item)) : PyM String :=
  catchAny
    (do
      let items ← scanRes
      let matching := search_memories_matching hashtag items
      if matching.isEmpty then
        Except.ok ("No memories found with hashtag: " ++ normalizeHashtag hashtag)
      else
        Except.ok ("Memories with " ++ normalizeHashtag hashtag ++ " (" ++
          toString matching.length ++ "):\n\n" ++
          String.intercalate "\n\n" (matching.map memoryLine)))
    (fun m => "Error searching memories: " ++ m)

theorem pyOk_catchClientAndAny (body : PyM String)
    (onClient : String → String → String) (onAny : String → String) :
    pyOk (catchClientAndAny body onClient onAny) = true := by
  cases body with
  | ok s => rfl
  | error e => cases e <;> rfl

theorem pyOk_catchAny (body : PyM String) (onAny : String → String) :
    pyOk (catchAny body onAny) = true := by
  cases body with
  | ok s => rfl
  | error e => cases e <;> rfl

/-- C9: every listed tool operation — table create/list/delete/describe,
item put/get/update/delete/scan/query, memory store/list/search — is
total at its boundary: whatever the engine returns or raises (any
client error with any code, or any other exception), the tool returns a
string result and never propagates an exception; two sampled injected
failures show the error message surfaced as the result. -/
theorem c9_tools_total :
    (∀ tn pk sk r, pyOk (create_dynamodb_table tn pk sk r) = true) ∧
      (∀ r, pyOk (list_dynamodb_tables r) = true) ∧
      (∀ tn r, pyOk (delete_dynamodb_table tn r) = true) ∧
      (∀ tn r, pyOk (describe_dynamodb_table tn r) = true) ∧
      (∀ tn it r, pyOk (put_dynamodb_item tn it r) = true) ∧
      (∀ tn k r, pyOk (get_dynamodb_item tn k r) = true) ∧
      (∀ tn k u r, pyOk (update_dynamodb_item tn k u r) = true) ∧
      (∀ tn k r, pyOk (delete_dynamodb_item tn k r) = true) ∧
      (∀ tn lim fe r, pyOk (scan_dynamodb_table tn lim fe r) = true) ∧
      (∀ tn pkn pkv lim r, pyOk (query_dynamodb_table tn pkn pkv lim r) = true) ∧
      (∀ t c tl hs src meta r, pyOk (store_memory_item t c tl hs src meta r) = true) ∧
      (∀ lim r, pyOk (list_recent_memories lim r) = true) ∧
      (∀ h r, pyOk (search_memories_by_hashtag h r) = true) ∧
      put_dynamodb_item "t" Val.vnone (Except.error (PyErr.otherError "boom")) =
        Except.ok "Unexpected error: boom" ∧
      list_recent_memories 5
          (Except.error (PyErr.clientError "ResourceNotFoundException" "no table")) =
        Except.ok ("Memory table " ++ MEMORY_TABLE_NAME ++ " does not exist yet") := by
  refine ⟨?_, ?_, ?_, ?_, ?_, ?_, ?_, ?_, ?_, ?_, ?_, ?_, ?_, rfl, rfl⟩
  · intro tn pk sk r
    exact pyOk_catchClientAndAny _ _ _
  · intro r
    exact pyOk_catchClientAndAny _ _ _
  · intro tn r
    exact pyOk_catchClientAndAny _ _ _
  · intro tn r
    exact pyOk_catchClientAndAny _ _ _
  · intro tn it r
    exact pyOk_catchClientAndAny _ _ _
  · intro tn k r
    exact pyOk_catchClientAndAny _ _ _
  · intro tn k u r
    exact pyOk_catchClientAndAny _ _ _
  · intro tn k r
    exact pyOk_catchClientAndAny _ _ _
  · intro tn lim fe r
    exact pyOk_catchClientAndAny _ _ _
  · intro tn pkn pkv lim r
    exact pyOk_catchClientAndAny _ _ _
  · intro t c tl hs src meta r
    exact pyOk_catchAny _ _
  · intro lim r
    exact pyOk_catchClientAndAny _ _ _
  · intro h r
    exact pyOk_catchAny _ _
